import Mathlib

/-!
Verification of the library-management backend core (books, loans, users).

The Python services in `app/services/{book,loan,user}.py` are shallowly
embedded here as pure Lean functions over an explicit database state:

* SQLAlchemy rows become Lean structures (`Book`, `Loan`, `User`); UUIDs and
  timestamps are modelled as `Nat`.
* A query `select(T).where(p)` returning one row becomes `List.find?`;
  mutating the returned ORM object becomes `updateFirst` (the first row
  matching the same predicate is replaced).
* `HTTPException` becomes the `Err` type (status code and detail string);
  a service function returns `Except Err _`, and an `error` result models
  a rolled-back transaction (the caller keeps the old state).
* The partial unique index `uq_active_loan_per_book` (`book_id` unique
  WHERE `status = 'OUT'`) is modelled at the commit points: an insert of an
  OUT loan for a book that already has one raises `IntegrityError`, which
  the code maps to a 409 conflict.
-/

namespace Library

/-- `BookStatus` from `app/models/book.py`. -/
inductive BookStatus where
  | AVAILABLE
  | BORROWED
deriving DecidableEq, Repr

/-- `LoanStatus` from `app/models/loan.py`. -/
inductive LoanStatus where
  | OUT
  | RETURNED
deriving DecidableEq, Repr

/-- `UserRole` from `app/models/user.py`. -/
inductive UserRole where
  | ADMIN
  | LIBRARIAN
  | MEMBER
deriving DecidableEq, Repr

/-- A row of the `books` table (`app/models/book.py`). -/
structure Book where
  id : Nat
  title : String
  author : String
  isbn : Option String
  published_year : Option Int
  description : Option String
  tags : Option (List String)
  status : BookStatus
  created_at : Nat
  updated_at : Nat
deriving DecidableEq, Repr

/-- A row of the `loans` table (`app/models/loan.py`). -/
structure Loan where
  id : Nat
  book_id : Nat
  user_id : Nat
  checked_out_at : Nat
  returned_at : Option Nat
  status : LoanStatus
deriving DecidableEq, Repr

/-- A row of the `users` table (`app/models/user.py`). -/
structure User where
  id : Nat
  email : String
  name : String
  role : UserRole
  oauth_provider : Option String
  oauth_subject : Option String
  created_at : Nat
deriving DecidableEq, Repr

/-- An `HTTPException` raised by a service function: status code and detail. -/
inductive Err where
  | notFound (detail : String)
  | conflict (detail : String)
  | forbidden (detail : String)
deriving DecidableEq, Repr

/-- The database state the claims range over: the `books` and `loans` tables. -/
structure DB where
  books : List Book
  loans : List Loan
deriving DecidableEq, Repr

/-- The empty database. -/
def emptyDB : DB := ⟨[], []⟩

/-- Replace the first element satisfying `p` by its `f`-image (the embedding
of mutating the single ORM row returned by a `find?`-style query). -/
def updateFirst (p : α → Bool) (f : α → α) : List α → List α
  | [] => []
  | x :: xs => if p x then f x :: xs else x :: updateFirst p f xs

/-- Number of loans with status OUT referencing book `bid` —
what the partial unique index `uq_active_loan_per_book` constrains. -/
def outCount (loans : List Loan) (bid : Nat) : Nat :=
  loans.countP (fun l => l.book_id == bid && l.status == LoanStatus.OUT)

/-- Whether an OUT loan for book `bid` already exists: inserting another one
violates the partial unique index and the commit raises `IntegrityError`. -/
def hasOutLoan (loans : List Loan) (bid : Nat) : Bool :=
  loans.any (fun l => l.book_id == bid && l.status == LoanStatus.OUT)

/-- `checkout_book` from `app/services/loan.py`.  The book row is fetched
under `SELECT ... FOR UPDATE`; `newLoanId` is the fresh UUID of the loan and
`now` the current time.  The `hasOutLoan` test at the end is the commit:
it raises `IntegrityError` (mapped to 409) exactly when the partial unique
index rejects the new OUT loan. -/
def checkout_book (db : DB) (book_id : Nat) (current_user : User)
    (newLoanId now : Nat) : Except Err (DB × Loan) :=
  match db.books.find? (fun b => b.id == book_id) with
  | none => .error (.notFound "Book not found")
  | some book =>
    if book.status == BookStatus.BORROWED then
      .error (.conflict "Book is already borrowed")
    else
      if hasOutLoan db.loans book_id then
        .error (.conflict "Book is already borrowed")
      else
        let loan : Loan :=
          { id := newLoanId, book_id := book_id, user_id := current_user.id,
            checked_out_at := now, returned_at := none, status := LoanStatus.OUT }
        .ok ({ books := updateFirst (fun b => b.id == book_id)
                 (fun b => { b with status := BookStatus.BORROWED, updated_at := now }) db.books,
               loans := db.loans ++ [loan] }, loan)

/-- The commit of a checkout transaction that already passed the
status check against a stale read (the interleaving the row lock normally
prevents and the partial unique index guards against): at commit the
database enforces the unique index and the book foreign key; on violation
the transaction rolls back and the state is unchanged. -/
def raceCommitCheckout (db : DB) (book_id user_id newLoanId now : Nat) : DB :=
  if hasOutLoan db.loans book_id then db
  else
    match db.books.find? (fun b => b.id == book_id) with
    | none => db
    | some _ =>
      { books := updateFirst (fun b => b.id == book_id)
          (fun b => { b with status := BookStatus.BORROWED, updated_at := now }) db.books,
        loans := db.loans ++
          [{ id := newLoanId, book_id := book_id, user_id := user_id,
             checked_out_at := now, returned_at := none, status := LoanStatus.OUT }] }

/-- `return_book` from `app/services/loan.py`. -/
def return_book (db : DB) (loan_id : Nat) (current_user : User)
    (now : Nat) : Except Err (DB × Loan) :=
  match db.loans.find? (fun l => l.id == loan_id && l.status == LoanStatus.OUT) with
  | none => .error (.notFound "Active loan not found")
  | some loan =>
    if current_user.role == UserRole.MEMBER && loan.user_id != current_user.id then
      .error (.forbidden "Cannot return another user\x27s loan")
    else
      let loan' : Loan := { loan with status := LoanStatus.RETURNED, returned_at := some now }
      .ok ({ books := updateFirst (fun b => b.id == loan.book_id)
               (fun b => { b with status := BookStatus.AVAILABLE, updated_at := now }) db.books,
             loans := updateFirst (fun l => l.id == loan_id && l.status == LoanStatus.OUT)
               (fun l => { l with status := LoanStatus.RETURNED, returned_at := some now }) db.loans },
            loan')

/-- Descending order on checkout time (`ORDER BY checked_out_at DESC`). -/
def loanLater (a b : Loan) : Prop := b.checked_out_at ≤ a.checked_out_at

instance : DecidableRel loanLater := fun _ _ => Nat.decLe _ _

instance : IsTotal Loan loanLater := ⟨fun x y => Nat.le_total y.checked_out_at x.checked_out_at⟩

instance : IsTrans Loan loanLater := ⟨fun _ _ _ h h' => Nat.le_trans h' h⟩

/-- The page of items and total count returned by `list_loans`. -/
structure LoanPage where
  items : List Loan
  total : Nat
deriving DecidableEq, Repr

/-- `list_loans` from `app/services/loan.py`: MEMBER sees only their own
loans, LIBRARIAN / ADMIN see all; total counted on the filtered set before
pagination; ordered by `checked_out_at` descending. -/
def list_loans (db : DB) (current_user : User) (page page_size : Nat) : LoanPage :=
  let base :=
    if current_user.role == UserRole.MEMBER then
      db.loans.filter (fun l => l.user_id == current_user.id)
    else db.loans
  let total := base.length
  let rows := ((base.insertionSort loanLater).drop ((page - 1) * page_size)).take page_size
  { items := rows, total := total }

/-- SQL `LIKE` matching of a pattern against a text (both already
case-folded when modelling `ILIKE`): `%` matches any sequence of
characters, `_` matches exactly one character, and the default escape
character `\` makes the following pattern character literal.  A pattern
ending in a dangling escape is an error in PostgreSQL; it is modelled as
matching nothing (the patterns `list_books` builds always end in `%`,
possibly escaped, so that case is unreachable from the service). -/
def likeMatch : List Char → List Char → Bool
  | [], t => t.isEmpty
  | c :: ps, t =>
    if c = '%' then t.tails.any (fun s => likeMatch ps s)
    else if c = '\\' then
      match ps, t with
      | p :: ps2, d :: ts => d == p && likeMatch ps2 ts
      | _, _ => false
    else
      match t with
      | [] => false
      | d :: ts => (if c = '_' then true else d == c) && likeMatch ps ts

/-- The `q`/`author` filter exactly as `list_books` builds it:
`column ILIKE '%' + text + '%'`, the user text interpolated raw into the
pattern, so `%`, `_` and `\` inside it keep their `LIKE` meaning;
case-insensitivity is modelled by lower-casing pattern and text. -/
def ilikeContains (hay pat : String) : Bool :=
  likeMatch (('%' :: (pat.data ++ ['%'])).map Char.toLower)
    (hay.data.map Char.toLower)

/-- `ILIKE` against a nullable column: SQL `NULL ILIKE p` is not true. -/
def optIlikeContains (hay : Option String) (pat : String) : Bool :=
  match hay with
  | some s => ilikeContains s pat
  | none => false

/-- The row filter built by `list_books` in `app/services/book.py`.
Each `if q:` in the Python code tests truthiness, so a filter that is
absent (`none`) or the empty string contributes no `WHERE` clause. -/
def bookFilter (q author tag : Option String) (status : Option BookStatus)
    (b : Book) : Bool :=
  (match q with
   | some s =>
     if s == "" then true
     else ilikeContains b.title s || ilikeContains b.author s ||
          optIlikeContains b.isbn s || optIlikeContains b.description s
   | none => true) &&
  (match author with
   | some s => if s == "" then true else ilikeContains b.author s
   | none => true) &&
  (match tag with
   | some s =>
     if s == "" then true
     else match b.tags with
          | some ts => ts.contains s
          | none => false
   | none => true) &&
  (match status with
   | some st => b.status == st
   | none => true)

/-- Descending order on creation time (`ORDER BY created_at DESC`). -/
def bookNewer (a b : Book) : Prop := b.created_at ≤ a.created_at

instance : DecidableRel bookNewer := fun _ _ => Nat.decLe _ _

instance : IsTotal Book bookNewer := ⟨fun x y => Nat.le_total y.created_at x.created_at⟩

instance : IsTrans Book bookNewer := ⟨fun _ _ _ h h' => Nat.le_trans h' h⟩

/-- The `BookListResponse` payload of `list_books`. -/
structure BookListResult where
  items : List Book
  total : Nat
  page : Nat
  page_size : Nat
  pages : Nat
deriving DecidableEq, Repr

/-- `list_books` from `app/services/book.py`: conjunctive optional filters,
count over the filtered set, `created_at` descending, offset/limit
pagination, `pages = math.ceil(total / page_size) if page_size else 1`. -/
def list_books (db : DB) (q author tag : Option String) (status : Option BookStatus)
    (page page_size : Nat) : BookListResult :=
  let filtered := db.books.filter (bookFilter q author tag status)
  let total := filtered.length
  let rows := ((filtered.insertionSort bookNewer).drop ((page - 1) * page_size)).take page_size
  let pages := if page_size == 0 then 1 else (total + page_size - 1) / page_size
  { items := rows, total := total, page := page, page_size := page_size, pages := pages }

/-- The `BookCreate` request schema (`app/schemas/book.py`): `title` and
`author` required, the rest optional. -/
structure BookCreate where
  title : String
  author : String
  isbn : Option String
  published_year : Option Int
  description : Option String
  tags : Option (List String)
deriving DecidableEq, Repr

/-- The `BookUpdate` request schema (`app/schemas/book.py`) as seen through
`model_dump(exclude_unset=True)`: the outer `Option` records whether the
field was present in the request body at all, the inner one is the value
sent (every field of `BookUpdate` admits an explicit JSON `null`). -/
structure BookUpdate where
  title : Option (Option String) := none
  author : Option (Option String) := none
  isbn : Option (Option String) := none
  published_year : Option (Option Int) := none
  description : Option (Option String) := none
  tags : Option (Option (List String)) := none
  status : Option (Option BookStatus) := none
deriving DecidableEq, Repr

/-- Whether committing a book row with ISBN `isbn` for book `bid` violates
the unique constraint on `books.isbn` (`NULL`s never conflict). -/
def isbnConflict (books : List Book) (bid : Nat) (isbn : Option String) : Bool :=
  match isbn with
  | some s => books.any (fun b => !(b.id == bid) && b.isbn == some s)
  | none => false

/-- `create_book` from `app/services/book.py`: the new row takes the server
defaults `status = AVAILABLE`, `created_at = updated_at = now()`; an
`IntegrityError` at commit (duplicate ISBN) is mapped to 409. -/
def create_book (db : DB) (data : BookCreate) (newId now : Nat) : Except Err (DB × Book) :=
  let book : Book :=
    { id := newId, title := data.title, author := data.author, isbn := data.isbn,
      published_year := data.published_year, description := data.description,
      tags := data.tags, status := BookStatus.AVAILABLE, created_at := now, updated_at := now }
  if isbnConflict db.books newId data.isbn then
    .error (.conflict "A book with this ISBN already exists")
  else
    .ok ({ db with books := db.books ++ [book] }, book)

/-- `update_book` from `app/services/book.py`: fetch the row (404 if
absent), `setattr` every field present in `model_dump(exclude_unset=True)`,
then commit.  The commit enforces the NOT NULL constraints on `title`,
`author` and `status` and the unique constraint on `isbn`; any
`IntegrityError` is mapped to the 409 duplicate-ISBN response. -/
def update_book (db : DB) (book_id : Nat) (data : BookUpdate) (now : Nat) :
    Except Err (DB × Book) :=
  match db.books.find? (fun b => b.id == book_id) with
  | none => .error (.notFound "Book not found")
  | some book =>
    let title' := data.title.getD (some book.title)
    let author' := data.author.getD (some book.author)
    let isbn' := data.isbn.getD book.isbn
    let published_year' := data.published_year.getD book.published_year
    let description' := data.description.getD book.description
    let tags' := data.tags.getD book.tags
    let status' := data.status.getD (some book.status)
    match title', author', status' with
    | some t, some a, some st =>
      if isbnConflict db.books book_id isbn' then
        .error (.conflict "A book with this ISBN already exists")
      else
        let book' : Book :=
          { book with
            title := t, author := a, isbn := isbn',
            published_year := published_year', description := description',
            tags := tags', status := st, updated_at := now }
        .ok ({ db with
               books := updateFirst (fun b => b.id == book_id)
                 (fun b => { b with
                   title := t, author := a, isbn := isbn',
                   published_year := published_year', description := description',
                   tags := tags', status := st, updated_at := now }) db.books }, book')
    | _, _, _ =>
      -- NOT NULL violation at flush: surfaced through the same handler
      .error (.conflict "A book with this ISBN already exists")

/-- `delete_book` from `app/services/book.py`: 404 if the book is absent,
409 if an OUT loan references it, otherwise delete all its loan rows and
then the book row itself. -/
def delete_book (db : DB) (book_id : Nat) : Except Err DB :=
  match db.books.find? (fun b => b.id == book_id) with
  | none => .error (.notFound "Book not found")
  | some _ =>
    if hasOutLoan db.loans book_id then
      .error (.conflict "Cannot delete a book that is currently borrowed")
    else
      .ok { books := db.books.filter (fun b => !(b.id == book_id)),
            loans := db.loans.filter (fun l => !(l.book_id == book_id)) }

/-- `get_or_create_user` from `app/services/user.py`: look up by
(provider, subject), then by email, else insert a new user; the inserted
row takes the server default `role = MEMBER`. -/
def get_or_create_user (users : List User) (email name provider subject : String)
    (newId now : Nat) : List User × User :=
  match users.find? (fun u => u.oauth_provider == some provider &&
      u.oauth_subject == some subject) with
  | some u => (users, u)
  | none =>
    match users.find? (fun u => u.email == email) with
    | some u => (users, u)
    | none =>
      let u : User :=
        { id := newId, email := email, name := name, role := UserRole.MEMBER,
          oauth_provider := some provider, oauth_subject := some subject,
          created_at := now }
      (users ++ [u], u)

/-- One successful state-changing operation of the system.  Each constructor
carries the defining equation of the corresponding service function
(a failing call rolls back and does not change the state).  `create`
additionally records that the generated UUID primary key is fresh, which the
database enforces.  `race` is the commit of a second interleaved checkout
transaction that passed the status check on a stale read. -/
inductive Step : DB → DB → Prop where
  | create (db : DB) (data : BookCreate) (newId now : Nat) (db' : DB) (bk : Book)
      (hfresh : ∀ b ∈ db.books, b.id ≠ newId)
      (h : create_book db data newId now = .ok (db', bk)) : Step db db'
  | update (db : DB) (book_id : Nat) (data : BookUpdate) (now : Nat) (db' : DB) (bk : Book)
      (h : update_book db book_id data now = .ok (db', bk)) : Step db db'
  | delete (db : DB) (book_id : Nat) (db' : DB)
      (h : delete_book db book_id = .ok db') : Step db db'
  | checkout (db : DB) (book_id : Nat) (u : User) (newLoanId now : Nat) (db' : DB) (l : Loan)
      (h : checkout_book db book_id u newLoanId now = .ok (db', l)) : Step db db'
  | retrn (db : DB) (loan_id : Nat) (u : User) (now : Nat) (db' : DB) (l : Loan)
      (h : return_book db loan_id u now = .ok (db', l)) : Step db db'
  | race (db : DB) (book_id user_id newLoanId now : Nat) :
      Step db (raceCommitCheckout db book_id user_id newLoanId now)

/-- States reachable from the empty database through the operations of the system, interleaved checkout commits included. -/
def Reachable (db : DB) : Prop := Relation.ReflTransGen Step emptyDB db

/-- Like `Step`, but the book-update operation never supplies the `status`
field — i.e. the administrative manual status override is not used. -/
inductive StepSafe : DB → DB → Prop where
  | create (db : DB) (data : BookCreate) (newId now : Nat) (db' : DB) (bk : Book)
      (hfresh : ∀ b ∈ db.books, b.id ≠ newId)
      (h : create_book db data newId now = .ok (db', bk)) : StepSafe db db'
  | update (db : DB) (book_id : Nat) (data : BookUpdate) (now : Nat) (db' : DB) (bk : Book)
      (hst : data.status = none)
      (h : update_book db book_id data now = .ok (db', bk)) : StepSafe db db'
  | delete (db : DB) (book_id : Nat) (db' : DB)
      (h : delete_book db book_id = .ok db') : StepSafe db db'
  | checkout (db : DB) (book_id : Nat) (u : User) (newLoanId now : Nat) (db' : DB) (l : Loan)
      (h : checkout_book db book_id u newLoanId now = .ok (db', l)) : StepSafe db db'
  | retrn (db : DB) (loan_id : Nat) (u : User) (now : Nat) (db' : DB) (l : Loan)
      (h : return_book db loan_id u now = .ok (db', l)) : StepSafe db db'
  | race (db : DB) (book_id user_id newLoanId now : Nat) :
      StepSafe db (raceCommitCheckout db book_id user_id newLoanId now)

/-- States reachable without the manual status override. -/
def ReachableSafe (db : DB) : Prop := Relation.ReflTransGen StepSafe emptyDB db

/-- The status/ledger agreement for one book: Borrowed iff exactly one OUT
loan references it, Available iff zero do. -/
def bookConsistent (loans : List Loan) (b : Book) : Bool :=
  decide ((b.status = BookStatus.BORROWED ↔ outCount loans b.id = 1) ∧
          (b.status = BookStatus.AVAILABLE ↔ outCount loans b.id = 0))

/-- The status/ledger agreement for every book in the database. -/
def dbConsistent (db : DB) : Bool := db.books.all (bookConsistent db.loans)

/-- Structural health of a database state: primary-key uniqueness on books,
foreign-key integrity of loans, and the status/ledger agreement. -/
def WellFormed (db : DB) : Prop :=
  (db.books.map (fun b => b.id)).Nodup ∧
  (∀ l ∈ db.loans, ∃ b ∈ db.books, b.id = l.book_id) ∧
  dbConsistent db = true

/-! ### Helper lemmas about `updateFirst` and `outCount` -/

theorem updateFirst_decomp {p : α → Bool} {l : List α} {x : α}
    (h : l.find? p = some x) (f : α → α) :
    ∃ l1 l2, l = l1 ++ x :: l2 ∧ updateFirst p f l = l1 ++ f x :: l2 ∧
      (∀ y ∈ l1, p y = false) ∧ p x = true := by
  induction l with
  | nil => simp [List.find?] at h
  | cons a l ih =>
    by_cases hp : p a = true
    · rw [List.find?_cons_of_pos _ hp] at h
      obtain rfl : a = x := by injection h
      exact ⟨[], l, by simp, by simp [updateFirst, hp], by simp, hp⟩
    · rw [List.find?_cons_of_neg _ (by simpa using hp)] at h
      obtain ⟨l1, l2, hl, hu, hl1, hx⟩ := ih h
      exact ⟨a :: l1, l2, by simp [hl], by simp [updateFirst, hp, hu],
        by simpa [hp] using hl1, hx⟩

theorem countP_updateFirst_le {p : α → Bool} {f : α → α} {q : α → Bool}
    (hq : ∀ x, q (f x) = false) (l : List α) :
    (updateFirst p f l).countP q ≤ l.countP q := by
  induction l with
  | nil => simp [updateFirst]
  | cons a l ih =>
    cases hp : p a with
    | true =>
      simp [updateFirst, hp, List.countP_cons, hq a]
    | false =>
      simp only [updateFirst, hp, Bool.false_eq_true, if_false, List.countP_cons]
      omega

theorem outCount_append (l1 l2 : List Loan) (bid : Nat) :
    outCount (l1 ++ l2) bid = outCount l1 bid + outCount l2 bid :=
  List.countP_append _ _ _

theorem outCount_eq_zero_iff (l : List Loan) (bid : Nat) :
    outCount l bid = 0 ↔ hasOutLoan l bid = false := by
  simp [outCount, hasOutLoan, List.countP_eq_zero, List.any_eq_false]

/-! ### Inversion lemmas: what a successful service call tells us -/

theorem create_book_ok_inv {db : DB} {data : BookCreate} {newId now : Nat}
    {db' : DB} {bk : Book}
    (h : create_book db data newId now = .ok (db', bk)) :
    isbnConflict db.books newId data.isbn = false ∧
    bk = { id := newId, title := data.title, author := data.author, isbn := data.isbn,
           published_year := data.published_year, description := data.description,
           tags := data.tags, status := BookStatus.AVAILABLE,
           created_at := now, updated_at := now } ∧
    db' = { db with books := db.books ++ [bk] } := by
  unfold create_book at h
  split at h
  · exact absurd h (by simp)
  · next hc =>
    injection h with h
    injection h with h1 h2
    exact ⟨by simpa using hc, h2.symm, by rw [← h1, ← h2]⟩

theorem checkout_book_ok_inv {db : DB} {bid : Nat} {u : User} {lid now : Nat}
    {db' : DB} {l : Loan}
    (h : checkout_book db bid u lid now = .ok (db', l)) :
    ∃ book, db.books.find? (fun b => b.id == bid) = some book ∧
      book.status ≠ BookStatus.BORROWED ∧
      hasOutLoan db.loans bid = false ∧
      l = { id := lid, book_id := bid, user_id := u.id, checked_out_at := now,
            returned_at := none, status := LoanStatus.OUT } ∧
      db' = { books := updateFirst (fun b => b.id == bid)
                (fun b => { b with status := BookStatus.BORROWED, updated_at := now }) db.books,
              loans := db.loans ++ [l] } := by
  unfold checkout_book at h
  split at h
  · exact absurd h (by simp)
  · next book hfind =>
    refine ⟨book, hfind, ?_⟩
    split at h
    · exact absurd h (by simp)
    · next hb =>
      split at h
      · exact absurd h (by simp)
      · next hl =>
        injection h with h
        injection h with h1 h2
        exact ⟨by simpa using hb, by simpa using hl, h2.symm, by rw [← h1, ← h2]⟩

theorem return_book_ok_inv {db : DB} {lid : Nat} {u : User} {now : Nat}
    {db' : DB} {l : Loan}
    (h : return_book db lid u now = .ok (db', l)) :
    ∃ loan, db.loans.find? (fun x => x.id == lid && x.status == LoanStatus.OUT) = some loan ∧
      (u.role == UserRole.MEMBER && loan.user_id != u.id) = false ∧
      l = { loan with status := LoanStatus.RETURNED, returned_at := some now } ∧
      db' = { books := updateFirst (fun b => b.id == loan.book_id)
                (fun b => { b with status := BookStatus.AVAILABLE, updated_at := now }) db.books,
              loans := updateFirst (fun x => x.id == lid && x.status == LoanStatus.OUT)
                (fun x => { x with status := LoanStatus.RETURNED, returned_at := some now })
                db.loans } := by
  unfold return_book at h
  split at h
  · exact absurd h (by simp)
  · next loan hfind =>
    refine ⟨loan, hfind, ?_⟩
    split at h
    · exact absurd h (by simp)
    · next hrole =>
      injection h with h
      injection h with h1 h2
      exact ⟨by simpa using hrole, h2.symm, by rw [← h1]⟩

theorem delete_book_ok_inv {db : DB} {bid : Nat} {db' : DB}
    (h : delete_book db bid = .ok db') :
    ∃ book, db.books.find? (fun b => b.id == bid) = some book ∧
      hasOutLoan db.loans bid = false ∧
      db' = { books := db.books.filter (fun b => !(b.id == bid)),
              loans := db.loans.filter (fun l => !(l.book_id == bid)) } := by
  unfold delete_book at h
  split at h
  · exact absurd h (by simp)
  · next book hfind =>
    refine ⟨book, hfind, ?_⟩
    split at h
    · exact absurd h (by simp)
    · next hl =>
      injection h with h
      exact ⟨by simpa using hl, h.symm⟩

theorem update_book_ok_inv {db : DB} {bid : Nat} {data : BookUpdate} {now : Nat}
    {db' : DB} {bk : Book}
    (h : update_book db bid data now = .ok (db', bk)) :
    ∃ book t a st, db.books.find? (fun b => b.id == bid) = some book ∧
      data.title.getD (some book.title) = some t ∧
      data.author.getD (some book.author) = some a ∧
      data.status.getD (some book.status) = some st ∧
      isbnConflict db.books bid (data.isbn.getD book.isbn) = false ∧
      bk = { book with
             title := t, author := a, isbn := data.isbn.getD book.isbn,
             published_year := data.published_year.getD book.published_year,
             description := data.description.getD book.description,
             tags := data.tags.getD book.tags, status := st, updated_at := now } ∧
      db' = { db with
              books := updateFirst (fun b => b.id == bid)
                (fun b => { b with
                  title := t, author := a, isbn := data.isbn.getD book.isbn,
                  published_year := data.published_year.getD book.published_year,
                  description := data.description.getD book.description,
                  tags := data.tags.getD book.tags, status := st,
                  updated_at := now }) db.books } := by
  unfold update_book at h
  split at h
  · exact absurd h (by simp)
  · next book hfind =>
    dsimp only at h
    split at h
    · next t a st ht ha hst =>
      split at h
      · exact absurd h (by simp)
      · next hisbn =>
        injection h with h
        injection h with h1 h2
        exact ⟨book, t, a, st, hfind, ht, ha, hst, by simpa using hisbn,
          h2.symm, h1.symm⟩
    · exact absurd h (by simp)

/-! ### The active-loan uniqueness invariant (claim C1 machinery) -/

theorem outCount_single_le_one (l : Loan) (bid : Nat) : outCount [l] bid ≤ 1 := by
  simp only [outCount, List.countP_cons, List.countP_nil]
  split <;> omega

theorem outCount_single_ne (l : Loan) {bid : Nat} (h : l.book_id ≠ bid) :
    outCount [l] bid = 0 := by
  simp [outCount, List.countP_cons, h]

theorem step_preserves_outCount {db db' : DB} (s : Step db db')
    (h : ∀ bid, outCount db.loans bid ≤ 1) : ∀ bid, outCount db'.loans bid ≤ 1 := by
  intro bid
  cases s with
  | create data newId now db2 bk hfresh hc =>
    obtain ⟨-, -, rfl⟩ := create_book_ok_inv hc
    exact h bid
  | update bid0 data now db2 bk hu =>
    obtain ⟨book, t, a, st, -, -, -, -, -, -, rfl⟩ := update_book_ok_inv hu
    exact h bid
  | delete bid0 db2 hd =>
    obtain ⟨book, -, -, rfl⟩ := delete_book_ok_inv hd
    exact le_trans (List.Sublist.countP_le _ (List.filter_sublist _)) (h bid)
  | checkout bid0 u lid now db2 l hc =>
    obtain ⟨book, -, -, hl, rfl, rfl⟩ := checkout_book_ok_inv hc
    show outCount (db.loans ++ [_]) bid ≤ 1
    rw [outCount_append]
    by_cases hbid : bid0 = bid
    · subst hbid
      have h0 : outCount db.loans bid0 = 0 := (outCount_eq_zero_iff _ _).mpr hl
      rw [h0, Nat.zero_add]
      exact outCount_single_le_one _ _
    · rw [outCount_single_ne _ hbid]
      simpa using h bid
  | retrn lid u now db2 l hr =>
    obtain ⟨loan, -, -, rfl, rfl⟩ := return_book_ok_inv hr
    refine le_trans (countP_updateFirst_le ?_ _) (h bid)
    intro x
    simp
  | race bid0 uid lid now =>
    unfold raceCommitCheckout
    cases hOut : hasOutLoan db.loans bid0 with
    | true => simpa [hOut] using h bid
    | false =>
      cases hfind : db.books.find? (fun b => b.id == bid0) with
      | none => simpa [hOut, hfind] using h bid
      | some book =>
        simp only [hOut, hfind, Bool.false_eq_true, if_false]
        show outCount (db.loans ++ [_]) bid ≤ 1
        rw [outCount_append]
        by_cases hbid : bid0 = bid
        · subst hbid
          rw [(outCount_eq_zero_iff _ _).mpr hOut, Nat.zero_add]
          exact outCount_single_le_one _ _
        · rw [outCount_single_ne _ hbid]
          simpa using h bid

theorem reachable_outCount_le_one {db : DB} (h : Reachable db) :
    ∀ bid, outCount db.loans bid ≤ 1 := by
  induction h with
  | refl => intro bid; simp [emptyDB, outCount]
  | tail _ hstep ih => exact step_preserves_outCount hstep ih

/-! ### Status/ledger agreement helpers (claim C4 machinery) -/

theorem bookConsistent_avail {loans : List Loan} {b : Book}
    (hst : b.status = BookStatus.AVAILABLE) (h0 : outCount loans b.id = 0) :
    bookConsistent loans b = true := by
  simp [bookConsistent, hst, h0]

theorem bookConsistent_borrowed {loans : List Loan} {b : Book}
    (hst : b.status = BookStatus.BORROWED) (h1 : outCount loans b.id = 1) :
    bookConsistent loans b = true := by
  simp [bookConsistent, hst, h1]

theorem bookStatus_dichotomy (s : BookStatus) :
    s = BookStatus.AVAILABLE ∨ s = BookStatus.BORROWED := by
  cases s with
  | AVAILABLE => exact Or.inl rfl
  | BORROWED => exact Or.inr rfl

theorem bookConsistent_outCount_one {loans : List Loan} {b : Book}
    (hc : bookConsistent loans b = true) (hpos : 0 < outCount loans b.id) :
    b.status = BookStatus.BORROWED ∧ outCount loans b.id = 1 := by
  simp only [bookConsistent, decide_eq_true_eq] at hc
  rcases bookStatus_dichotomy b.status with hs | hs
  · exact absurd (hc.2.mp hs) (by omega)
  · exact ⟨hs, hc.1.mp hs⟩

theorem bookConsistent_congr {loans : List Loan} {b b' : Book}
    (h : bookConsistent loans b = true) (hid : b'.id = b.id)
    (hst : b'.status = b.status) : bookConsistent loans b' = true := by
  simp only [bookConsistent, decide_eq_true_eq, hid, hst] at *
  exact h

theorem dbConsistent_iff (db : DB) :
    dbConsistent db = true ↔ ∀ b ∈ db.books, bookConsistent db.loans b = true := by
  simp [dbConsistent, List.all_eq_true]

theorem map_updateFirst_eq {p : α → Bool} {f : α → α} (g : α → β)
    (hf : ∀ x, g (f x) = g x) (l : List α) :
    (updateFirst p f l).map g = l.map g := by
  induction l with
  | nil => rfl
  | cons a l ih =>
    cases hp : p a with
    | true => simp [updateFirst, hp, hf a]
    | false => simp [updateFirst, hp, ih]

theorem exists_id_updateFirst {p : Book → Bool} {f : Book → Book}
    (hf : ∀ x, (f x).id = x.id) {l : List Book} {i : Nat}
    (h : ∃ b ∈ l, b.id = i) : ∃ b ∈ updateFirst p f l, b.id = i := by
  induction l with
  | nil => simp at h
  | cons a l ih =>
    obtain ⟨b, hb, hbi⟩ := h
    cases hp : p a with
    | true =>
      rcases List.mem_cons.mp hb with rfl | hb
      · exact ⟨f b, by simp [updateFirst, hp], by rw [hf]; exact hbi⟩
      · exact ⟨b, by simp [updateFirst, hp, hb], hbi⟩
    | false =>
      rcases List.mem_cons.mp hb with rfl | hb
      · exact ⟨b, by simp [updateFirst, hp], hbi⟩
      · obtain ⟨b', hb', hbi'⟩ := ih ⟨b, hb, hbi⟩
        exact ⟨b', by simp [updateFirst, hp, hb'], hbi'⟩

theorem nodup_middle_ne {l1 l2 : List Book} {x : Book}
    (h : (((l1 ++ x :: l2)).map (fun b => b.id)).Nodup) :
    (∀ y ∈ l1, y.id ≠ x.id) ∧ (∀ y ∈ l2, y.id ≠ x.id) := by
  rw [List.map_append, List.map_cons, List.nodup_append] at h
  obtain ⟨-, h2, hdisj⟩ := h
  constructor
  · intro y hy hxy
    exact hdisj (List.mem_map_of_mem _ hy) (hxy ▸ List.mem_cons_self _ _)
  · intro y hy hxy
    exact (List.nodup_cons.mp h2).1 (hxy ▸ List.mem_map_of_mem _ hy)

theorem outCount_filter_ne {loans : List Loan} {bid0 i : Nat} (h : i ≠ bid0) :
    outCount (loans.filter (fun l => !(l.book_id == bid0))) i = outCount loans i := by
  rw [outCount, outCount, List.countP_filter]
  apply List.countP_congr
  intro x hx
  by_cases hxi : x.book_id = i
  · simp [hxi, h]
  · simp [hxi]

/-- The loan row inserted by a checkout commit. -/
def newOutLoan (lid bid uid now : Nat) : Loan :=
  { id := lid, book_id := bid, user_id := uid, checked_out_at := now,
    returned_at := none, status := LoanStatus.OUT }

theorem outCount_single_same (lid bid uid now : Nat) :
    outCount [newOutLoan lid bid uid now] bid = 1 := by
  simp [outCount, newOutLoan, List.countP_cons]

theorem nodup_ids_updateFirst {p : Book → Bool} {f : Book → Book}
    (hf : ∀ x, (f x).id = x.id) {l : List Book}
    (h : (l.map (fun b => b.id)).Nodup) :
    ((updateFirst p f l).map (fun b => b.id)).Nodup := by
  rw [map_updateFirst_eq (fun b : Book => b.id) hf]
  exact h

/-- Inserting a fresh OUT loan for book `bid0` while flipping that book to
BORROWED preserves well-formedness, provided no OUT loan for `bid0`
existed — the shared commit shape of `checkout_book` and of a raced
checkout commit admitted by the partial unique index. -/
theorem wf_insert_out_loan {db : DB} {bid0 uid lid now : Nat} {book : Book}
    (hfind : db.books.find? (fun b => b.id == bid0) = some book)
    (hOut : hasOutLoan db.loans bid0 = false)
    (hw : WellFormed db) :
    WellFormed
      { books := updateFirst (fun b => b.id == bid0)
          (fun b => { b with status := BookStatus.BORROWED, updated_at := now }) db.books,
        loans := db.loans ++ [newOutLoan lid bid0 uid now] } := by
  obtain ⟨hnd, hfk, hcons⟩ := hw
  have hcons' := (dbConsistent_iff db).mp hcons
  have hfid : ∀ x : Book,
      (({ x with status := BookStatus.BORROWED, updated_at := now } : Book)).id = x.id :=
    fun _ => rfl
  obtain ⟨l1, l2, hbooks, hupd, hl1, hpx⟩ := updateFirst_decomp hfind
      (fun b => { b with status := BookStatus.BORROWED, updated_at := now })
  have hbid : book.id = bid0 := by simpa using hpx
  have hmemBook : book ∈ db.books := by
    rw [hbooks]; exact List.mem_append_right _ (List.mem_cons_self _ _)
  obtain ⟨hne1, hne2⟩ := nodup_middle_ne (hbooks ▸ hnd)
  have h0 : outCount db.loans bid0 = 0 := (outCount_eq_zero_iff _ _).mpr hOut
  refine ⟨nodup_ids_updateFirst hfid hnd, ?_, ?_⟩
  · intro l hl
    rcases List.mem_append.mp hl with hl | hl
    · exact exists_id_updateFirst hfid (hfk l hl)
    · have hleq := List.mem_singleton.mp hl
      subst hleq
      exact exists_id_updateFirst hfid ⟨book, hmemBook, hbid⟩
  · rw [dbConsistent_iff]
    intro b hb
    show bookConsistent (db.loans ++ [newOutLoan lid bid0 uid now]) b = true
    rw [show (updateFirst (fun b => b.id == bid0)
          (fun b => { b with status := BookStatus.BORROWED, updated_at := now }) db.books)
        = l1 ++ ({ book with status := BookStatus.BORROWED, updated_at := now }) :: l2
        from hupd] at hb
    have hold : ∀ c : Book, c ∈ db.books → c.id ≠ bid0 →
        bookConsistent (db.loans ++ [newOutLoan lid bid0 uid now]) c = true := by
      intro c hc hcne
      have hco : outCount (db.loans ++ [newOutLoan lid bid0 uid now]) c.id
          = outCount db.loans c.id := by
        rw [outCount_append, outCount_single_ne _ (fun he => hcne he.symm), Nat.add_zero]
      have hcc := hcons' c hc
      simp only [bookConsistent, decide_eq_true_eq] at hcc ⊢
      rw [hco]
      exact hcc
    rcases List.mem_append.mp hb with hb | hb
    · exact hold b (by rw [hbooks]; exact List.mem_append_left _ hb)
        (fun he => by simpa [he] using hl1 b hb)
    · rcases List.mem_cons.mp hb with rfl | hb
      · refine bookConsistent_borrowed rfl ?_
        show outCount (db.loans ++ [newOutLoan lid bid0 uid now]) book.id = 1
        rw [hbid, outCount_append, h0, Nat.zero_add, outCount_single_same]
      · exact hold b (by rw [hbooks]; exact List.mem_append_right _ (List.mem_cons_of_mem _ hb))
          (fun he => hne2 b hb (he.trans hbid.symm))

theorem exists_id_in_updated {l1 l2 : List Book} {x y : Book} {i : Nat}
    (h : ∃ b ∈ l1 ++ x :: l2, b.id = i) (hxy : y.id = x.id) :
    ∃ b ∈ l1 ++ y :: l2, b.id = i := by
  obtain ⟨b, hb, hbi⟩ := h
  rcases List.mem_append.mp hb with hb | hb
  · exact ⟨b, List.mem_append_left _ hb, hbi⟩
  · rcases List.mem_cons.mp hb with rfl | hb
    · exact ⟨y, List.mem_append_right _ (List.mem_cons_self _ _), hxy.trans hbi⟩
    · exact ⟨b, List.mem_append_right _ (List.mem_cons_of_mem _ hb), hbi⟩

theorem stepSafe_preserves_wf {db db' : DB} (s : StepSafe db db') (h : WellFormed db) :
    WellFormed db' := by
  cases s with
  | create data newId now db2 bk hfresh hc =>
    obtain ⟨hic, hbk, rfl⟩ := create_book_ok_inv hc
    obtain ⟨hnd, hfk, hcons⟩ := h
    refine ⟨?_, ?_, ?_⟩
    · show ((db.books ++ [bk]).map (fun b => b.id)).Nodup
      rw [List.map_append, List.nodup_append]
      refine ⟨hnd, by simp, ?_⟩
      intro i hi hi'
      obtain ⟨b, hb, hbi⟩ := List.mem_map.mp hi
      have hibk : i = bk.id := by simpa using hi'
      exact hfresh b hb (hbi.trans (hibk.trans (by rw [hbk])))
    · intro l hl
      obtain ⟨b, hb, hbi⟩ := hfk l hl
      exact ⟨b, List.mem_append_left _ hb, hbi⟩
    · rw [dbConsistent_iff]
      intro b hb
      show bookConsistent db.loans b = true
      rcases List.mem_append.mp hb with hb | hb
      · exact (dbConsistent_iff db).mp hcons b hb
      · have hbbk : b = bk := List.mem_singleton.mp hb
        have hbid2 : b.id = newId := by rw [hbbk, hbk]
        refine bookConsistent_avail (by rw [hbbk, hbk]) ?_
        rw [outCount, List.countP_eq_zero]
        intro x hx hpx
        obtain ⟨b0, hb0, hb0i⟩ := hfk x hx
        have hab : x.book_id = newId := by
          have h1 := (Bool.and_eq_true _ _).mp hpx
          have h2 : x.book_id = b.id := by simpa using h1.1
          rw [h2, hbid2]
        exact hfresh b0 hb0 (by rw [hb0i, hab])
    | update bid0 data now db2 bk hst hu =>
    obtain ⟨book, t, a, st, hfind, _, _, hstg, hic, hbk, rfl⟩ := update_book_ok_inv hu
    obtain ⟨hnd, hfk, hcons⟩ := h
    have hstb : st = book.status := by
      rw [hst] at hstg
      simpa using hstg.symm
    obtain ⟨l1, l2, hbooks, hupd, hl1, hpx⟩ := updateFirst_decomp hfind
        (fun b => { b with
          title := t, author := a, isbn := data.isbn.getD book.isbn,
          published_year := data.published_year.getD book.published_year,
          description := data.description.getD book.description,
          tags := data.tags.getD book.tags, status := st, updated_at := now })
    refine ⟨?_, ?_, ?_⟩
    · show ((updateFirst _ _ db.books).map (fun b => b.id)).Nodup
      rw [hupd]
      have hnd2 := hbooks ▸ hnd
      simpa using hnd2
    · intro l hl
      show ∃ b ∈ updateFirst _ _ db.books, b.id = l.book_id
      rw [hupd]
      have hex : ∃ b ∈ l1 ++ book :: l2, b.id = l.book_id := by
        rw [← hbooks]; exact hfk l hl
      exact exists_id_in_updated hex rfl
    · rw [dbConsistent_iff]
      intro b hb
      show bookConsistent db.loans b = true
      rw [hupd] at hb
      rcases List.mem_append.mp hb with hb | hb
      · exact (dbConsistent_iff db).mp hcons b (by rw [hbooks]; exact List.mem_append_left _ hb)
      · rcases List.mem_cons.mp hb with rfl | hb
        · exact bookConsistent_congr
            ((dbConsistent_iff db).mp hcons book (by
              rw [hbooks]; exact List.mem_append_right _ (List.mem_cons_self _ _)))
            rfl hstb
        · exact (dbConsistent_iff db).mp hcons b (by
            rw [hbooks]; exact List.mem_append_right _ (List.mem_cons_of_mem _ hb))
  | delete bid0 db2 hd =>
    obtain ⟨book, hfind, hOut, rfl⟩ := delete_book_ok_inv hd
    obtain ⟨hnd, hfk, hcons⟩ := h
    refine ⟨?_, ?_, ?_⟩
    · show (((db.books.filter _)).map (fun b => b.id)).Nodup
      exact List.Nodup.sublist (List.Sublist.map _ (List.filter_sublist _)) hnd
    · intro l hl
      obtain ⟨hlmem, hlne⟩ := List.mem_filter.mp hl
      obtain ⟨b, hb, hbi⟩ := hfk l hlmem
      refine ⟨b, List.mem_filter.mpr ⟨hb, ?_⟩, hbi⟩
      rw [hbi]
      exact hlne
    · rw [dbConsistent_iff]
      intro b hb
      obtain ⟨hbmem, hbne⟩ := List.mem_filter.mp hb
      have hbne' : b.id ≠ bid0 := by simpa using hbne
      show bookConsistent (db.loans.filter _) b = true
      have hcb := (dbConsistent_iff db).mp hcons b hbmem
      simp only [bookConsistent, decide_eq_true_eq] at hcb ⊢
      rw [outCount_filter_ne hbne']
      exact hcb
  | checkout bid0 u lid now db2 l hc =>
    obtain ⟨book, hfind, _, hOut, rfl, rfl⟩ := checkout_book_ok_inv hc
    exact wf_insert_out_loan hfind hOut h
  | race bid0 uid lid now =>
    unfold raceCommitCheckout
    cases hOut : hasOutLoan db.loans bid0 with
    | true => simpa [hOut] using h
    | false =>
      cases hfind : db.books.find? (fun b => b.id == bid0) with
      | none => simpa [hOut, hfind] using h
      | some book =>
        simp only [hOut, hfind, Bool.false_eq_true, if_false]
        exact wf_insert_out_loan hfind hOut h
  | retrn lid u now db2 l hr =>
    obtain ⟨loan, hfindL, hrole, rfl, rfl⟩ := return_book_ok_inv hr
    obtain ⟨hnd, hfk, hcons⟩ := h
    have hloanOut : loan.status = LoanStatus.OUT := by
      have := List.find?_some hfindL
      have := (Bool.and_eq_true _ _).mp this
      simpa using this.2
    have hloanMem : loan ∈ db.loans := List.mem_of_find?_eq_some hfindL
    obtain ⟨L1, L2, hloans, hlupd, hL1, -⟩ := updateFirst_decomp hfindL
        (fun x => { x with status := LoanStatus.RETURNED, returned_at := some now })
    obtain ⟨b0, hb0, hb0i⟩ := hfk loan hloanMem
    cases hfindB : db.books.find? (fun b => b.id == loan.book_id) with
    | none =>
      exfalso
      have := List.find?_eq_none.mp hfindB b0 hb0
      simp [hb0i] at this
    | some bk1 =>
      have hbk1id : bk1.id = loan.book_id := by simpa using List.find?_some hfindB
      have hbk1mem : bk1 ∈ db.books := List.mem_of_find?_eq_some hfindB
      obtain ⟨M1, M2, hbooks, hbupd, hM1, -⟩ := updateFirst_decomp hfindB
          (fun b => { b with status := BookStatus.AVAILABLE, updated_at := now })
      obtain ⟨hne1, hne2⟩ := nodup_middle_ne (hbooks ▸ hnd)
      have hpos : 0 < outCount db.loans loan.book_id := by
        rw [outCount]
        exact List.countP_pos_iff.mpr ⟨loan, hloanMem, by simp [hloanOut]⟩
      have hcb1 := (dbConsistent_iff db).mp hcons bk1 hbk1mem
      obtain ⟨hbk1st, hcount1⟩ := bookConsistent_outCount_one hcb1 (hbk1id ▸ hpos)
      rw [hbk1id] at hcount1
      have hcnt : ∀ i,
          outCount (updateFirst (fun x => x.id == lid && x.status == LoanStatus.OUT)
            (fun x => { x with status := LoanStatus.RETURNED, returned_at := some now })
            db.loans) i
          = outCount db.loans i - (if i = loan.book_id then 1 else 0) := by
        intro i
        rw [hlupd, hloans]
        by_cases hi : i = loan.book_id
        · subst hi
          simp [outCount, List.countP_append, List.countP_cons, hloanOut]
        · have hbne : (loan.book_id == i) = false := by
            simpa using Ne.symm hi
          simp [outCount, List.countP_append, List.countP_cons, hbne, hi]
      refine ⟨?_, ?_, ?_⟩
      · show ((updateFirst _ _ db.books).map (fun b => b.id)).Nodup
        rw [hbupd]
        have hnd2 := hbooks ▸ hnd
        simpa using hnd2
      · intro x hx
        show ∃ b ∈ updateFirst _ _ db.books, b.id = x.book_id
        rw [hbupd]
        have hex : ∃ b ∈ M1 ++ bk1 :: M2, b.id = x.book_id := by
          rw [← hbooks]
          rw [hlupd] at hx
          rcases List.mem_append.mp hx with hx | hx
          · exact hfk x (by rw [hloans]; exact List.mem_append_left _ hx)
          · rcases List.mem_cons.mp hx with rfl | hx
            · exact ⟨b0, hb0, hb0i⟩
            · exact hfk x (by rw [hloans]; exact List.mem_append_right _ (List.mem_cons_of_mem _ hx))
        exact exists_id_in_updated hex rfl
      · rw [dbConsistent_iff]
        intro b hb
        show bookConsistent (updateFirst _ _ db.loans) b = true
        rw [hbupd] at hb
        have hother : ∀ c : Book, c ∈ db.books → c.id ≠ loan.book_id →
            bookConsistent (updateFirst (fun x => x.id == lid && x.status == LoanStatus.OUT)
              (fun x => { x with status := LoanStatus.RETURNED, returned_at := some now })
              db.loans) c = true := by
          intro c hc hcne
          have hcb := (dbConsistent_iff db).mp hcons c hc
          simp only [bookConsistent, decide_eq_true_eq] at hcb ⊢
          rw [hcnt c.id, if_neg hcne, Nat.sub_zero]
          exact hcb
        rcases List.mem_append.mp hb with hb | hb
        · refine hother b (by rw [hbooks]; exact List.mem_append_left _ hb) ?_
          intro he
          have hpb := hM1 b hb
          rw [he] at hpb
          simp at hpb
        · rcases List.mem_cons.mp hb with rfl | hb
          · refine bookConsistent_avail rfl ?_
            show outCount (updateFirst _ _ db.loans) bk1.id = 0
            rw [hbk1id, hcnt loan.book_id, if_pos rfl, hcount1]
          · exact hother b
              (by rw [hbooks]; exact List.mem_append_right _ (List.mem_cons_of_mem _ hb))
              (fun he => hne2 b hb (he.trans hbk1id.symm))

theorem reachableSafe_wf {db : DB} (h : ReachableSafe db) : WellFormed db := by
  induction h with
  | refl =>
    refine ⟨by simp [emptyDB], by simp [emptyDB], by simp [emptyDB, dbConsistent]⟩
  | tail _ hstep ih => exact stepSafe_preserves_wf hstep ih

/-! ### Pagination helpers: sortedness of a page, ceiling division -/

theorem sorted_page {α : Type} (r : α → α → Prop) [DecidableRel r] [IsTotal α r]
    [IsTrans α r] (l : List α) (n m : Nat) :
    List.Sorted r (((l.insertionSort r).drop n).take m) := by
  have hs : List.Sorted r (l.insertionSort r) := List.sorted_insertionSort r l
  have h1 : (((l.insertionSort r).drop n).take m).Sublist (l.insertionSort r) :=
    (List.take_sublist _ _).trans (List.drop_sublist _ _)
  exact List.Pairwise.sublist h1 hs

theorem mem_page {α : Type} (r : α → α → Prop) [DecidableRel r] {l : List α}
    {n m : Nat} {x : α} (hx : x ∈ ((l.insertionSort r).drop n).take m) : x ∈ l := by
  have h1 : (((l.insertionSort r).drop n).take m).Sublist (l.insertionSort r) :=
    (List.take_sublist _ _).trans (List.drop_sublist _ _)
  exact (List.mem_insertionSort r).mp (h1.mem hx)

theorem ceilDiv_eq_nat_ceil {total ps : Nat} (h : 0 < ps) :
    ((total + ps - 1) / ps : Nat) = ⌈(total : ℚ) / (ps : ℚ)⌉₊ := by
  have hps : (0 : ℚ) < (ps : ℚ) := by exact_mod_cast h
  rcases Nat.eq_zero_or_pos total with rfl | htot
  · rw [Nat.div_eq_of_lt (by omega)]
    simp
  · have hmod := Nat.div_add_mod (total + ps - 1) ps
    have hm : (total + ps - 1) % ps < ps := Nat.mod_lt _ h
    have hub : total ≤ ((total + ps - 1) / ps) * ps := by
      rw [Nat.mul_comm]
      omega
    have hn0 : (total + ps - 1) / ps ≠ 0 := by
      intro h0
      rw [h0] at hub
      omega
    have hlb : (((total + ps - 1) / ps) - 1) * ps < total := by
      rw [Nat.sub_mul, Nat.one_mul, Nat.mul_comm]
      omega
    rw [eq_comm, Nat.ceil_eq_iff hn0]
    constructor
    · rw [lt_div_iff₀ hps]
      calc ((((total + ps - 1) / ps : Nat) - 1 : Nat) : ℚ) * (ps : ℚ)
          = (((((total + ps - 1) / ps) - 1) * ps : Nat) : ℚ) := by push_cast; ring
        _ < (total : ℚ) := by exact_mod_cast hlb
    · rw [div_le_iff₀ hps]
      calc (total : ℚ) ≤ ((((total + ps - 1) / ps) * ps : Nat) : ℚ) := by exact_mod_cast hub
        _ = (((total + ps - 1) / ps : Nat) : ℚ) * (ps : ℚ) := by push_cast; ring

/-! ### Concrete fixtures used by the witnesses below -/

/-- A concrete `BookCreate` payload. -/
def wData : BookCreate :=
  { title := "Dune", author := "Frank Herbert", isbn := none,
    published_year := none, description := none, tags := none }

/-- The book row created from `wData` with id 1 at time 0. -/
def wBook : Book :=
  { id := 1, title := "Dune", author := "Frank Herbert", isbn := none,
    published_year := none, description := none, tags := none,
    status := BookStatus.AVAILABLE, created_at := 0, updated_at := 0 }

/-- A concrete MEMBER user. -/
def wUser : User :=
  { id := 100, email := "a@example.com", name := "Alice", role := UserRole.MEMBER,
    oauth_provider := none, oauth_subject := none, created_at := 0 }

/-- The database after creating `wBook`. -/
def wDB1 : DB := { books := [wBook], loans := [] }

/-- `wBook` after the checkout at time 5 flipped it to BORROWED. -/
def wBookB5 : Book := { wBook with status := BookStatus.BORROWED, updated_at := 5 }

/-- The database after `wUser` checked out `wBook` (loan id 10, time 5). -/
def wDB2 : DB := { books := [wBookB5], loans := [newOutLoan 10 1 100 5] }

theorem step_create_wDB1 : Step emptyDB wDB1 :=
  Step.create emptyDB wData 1 0 wDB1 wBook (by intro b hb; simp [emptyDB] at hb) rfl

theorem step_checkout_wDB2 : Step wDB1 wDB2 :=
  Step.checkout wDB1 1 wUser 10 5 wDB2 (newOutLoan 10 1 100 5) rfl

theorem reachable_wDB2 : Reachable wDB2 :=
  Relation.ReflTransGen.tail (Relation.ReflTransGen.tail Relation.ReflTransGen.refl
    step_create_wDB1) step_checkout_wDB2

theorem reachableSafe_wDB2 : ReachableSafe wDB2 :=
  Relation.ReflTransGen.tail (Relation.ReflTransGen.tail Relation.ReflTransGen.refl
    (StepSafe.create emptyDB wData 1 0 wDB1 wBook (by intro b hb; simp [emptyDB] at hb) rfl))
    (StepSafe.checkout wDB1 1 wUser 10 5 wDB2 (newOutLoan 10 1 100 5) rfl)

/-! ### Claim C1 -/

/-- C1: for every book, in every state reachable by any sequence of the operations of the system — checkout, return and delete included, and also the
commit of a second interleaved checkout that passed the status check on a
stale read — the number of loans with status OUT referencing that book is
0 or 1, never more. -/
theorem claim_C1_at_most_one_active_loan {db : DB} (h : Reachable db) (bid : Nat) :
    outCount db.loans bid ≤ 1 :=
  reachable_outCount_le_one h bid

/-- Witness for C1 at a concrete reachable state (a created book checked
out once). -/
theorem claim_C1_witness : outCount wDB2.loans 1 ≤ 1 :=
  claim_C1_at_most_one_active_loan reachable_wDB2 1

/-! ### Claim C4 -/

/-- The status-override payload `{"status": "BORROWED"}` a Librarian/Admin
may send to the book-update endpoint. -/
def wStatusOverride : BookUpdate := { status := some (some BookStatus.BORROWED) }

/-- `wBook` after the manual status override at time 7 (no loan exists). -/
def wBookB7 : Book := { wBook with status := BookStatus.BORROWED, updated_at := 7 }

/-- The database reached by creating `wBook` and then updating it with the
manual status override: a BORROWED book with zero OUT loans. -/
def wDB1B : DB := { books := [wBookB7], loans := [] }

/-- C4 as stated is false: the Librarian/Admin book-update operation can
set the status of a book to BORROWED directly, reaching a state with a BORROWED
book that no OUT loan references. -/
theorem claim_C4_counterexample :
    Reachable wDB1B ∧ wBookB7 ∈ wDB1B.books ∧
    wBookB7.status = BookStatus.BORROWED ∧ outCount wDB1B.loans wBookB7.id = 0 :=
  ⟨Relation.ReflTransGen.tail (Relation.ReflTransGen.tail Relation.ReflTransGen.refl
      step_create_wDB1)
      (Step.update wDB1 1 wStatusOverride 7 wDB1B wBookB7 rfl),
    by simp [wDB1B], rfl, rfl⟩

/-- C4 amended: in every state reachable through operations of the system in
which the book-update operation never supplies the `status` field (the
manual override the spec itself flags as a hand-operated escape hatch), the status of a book is
BORROWED iff exactly one OUT loan references it and AVAILABLE iff zero do. -/
theorem claim_C4_status_ledger_agreement {db : DB} (h : ReachableSafe db) :
    ∀ b ∈ db.books,
      (b.status = BookStatus.BORROWED ↔ outCount db.loans b.id = 1) ∧
      (b.status = BookStatus.AVAILABLE ↔ outCount db.loans b.id = 0) := by
  intro b hb
  have hc := (dbConsistent_iff db).mp (reachableSafe_wf h).2.2 b hb
  simpa [bookConsistent] using hc

/-- Witness for the amended C4 at a concrete reachable state. -/
theorem claim_C4_witness :
    (wBookB5.status = BookStatus.BORROWED ↔ outCount wDB2.loans wBookB5.id = 1) ∧
    (wBookB5.status = BookStatus.AVAILABLE ↔ outCount wDB2.loans wBookB5.id = 0) :=
  claim_C4_status_ledger_agreement reachableSafe_wDB2 wBookB5 (by simp [wDB2])

/-! ### Claim C2 -/

/-- C2: checkout, for every authenticated actor.  If no book with the id
exists the call fails NotFound.  If the status of the book is Borrowed it fails
Conflict.  Otherwise, when the commit passes the partial unique index
(no OUT loan for the book exists), exactly one new OUT loan for that book
and actor is appended and the row of the book is set to Borrowed; when the
commit instead raises the uniqueness violation, the error is the very same
Conflict value as the explicit status check, and no new state is produced
(the transaction rolls back). -/
theorem claim_C2_checkout_spec (db : DB) (bid : Nat) (u : User) (lid now : Nat) :
    (db.books.find? (fun b => b.id == bid) = none →
      checkout_book db bid u lid now = .error (.notFound "Book not found")) ∧
    (∀ book, db.books.find? (fun b => b.id == bid) = some book →
      (book.status = BookStatus.BORROWED →
        checkout_book db bid u lid now = .error (.conflict "Book is already borrowed")) ∧
      (book.status ≠ BookStatus.BORROWED → hasOutLoan db.loans bid = false →
        checkout_book db bid u lid now =
          .ok ({ books := updateFirst (fun b => b.id == bid)
                   (fun b => { b with status := BookStatus.BORROWED, updated_at := now })
                   db.books,
                 loans := db.loans ++ [newOutLoan lid bid u.id now] },
               newOutLoan lid bid u.id now)) ∧
      (book.status ≠ BookStatus.BORROWED → hasOutLoan db.loans bid = true →
        checkout_book db bid u lid now = .error (.conflict "Book is already borrowed"))) := by
  refine ⟨?_, ?_⟩
  · intro hf
    simp [checkout_book, hf]
  · intro book hfind
    refine ⟨?_, ?_, ?_⟩
    · intro hst
      simp [checkout_book, hfind, hst]
    · intro hst hOut
      have hst' : (book.status == BookStatus.BORROWED) = false := by
        simpa using hst
      simp only [checkout_book, hfind, hst', hOut, Bool.false_eq_true, if_false]
      rfl
    · intro hst hOut
      have hst' : (book.status == BookStatus.BORROWED) = false := by
        simpa using hst
      simp [checkout_book, hfind, hst', hOut]

/-- Witness for C2: the successful checkout of `wBook` by `wUser`. -/
theorem claim_C2_witness :
    checkout_book wDB1 1 wUser 10 5 = .ok (wDB2, newOutLoan 10 1 100 5) :=
  ((claim_C2_checkout_spec wDB1 1 wUser 10 5).2 wBook rfl).2.1 (by decide) rfl

/-! ### Claim C3 -/

/-- C3: return, for every authenticated actor.  When every loan carrying
the requested id is already RETURNED — which covers both a nonexistent
loan id and an already-returned loan — the call fails with the same
NotFound result.  When an OUT loan with the id is found: a MEMBER actor
who is not the borrower gets Forbidden; otherwise the row of the loan is set to
RETURNED with the returned timestamp, and the row of the referenced book is set
to AVAILABLE (`updateFirst` touches no row when the book no longer
exists). -/
theorem claim_C3_return_spec (db : DB) (lid : Nat) (u : User) (now : Nat) :
    ((∀ loan ∈ db.loans, loan.id = lid → loan.status = LoanStatus.RETURNED) →
      return_book db lid u now = .error (.notFound "Active loan not found")) ∧
    (∀ loan, db.loans.find? (fun x => x.id == lid && x.status == LoanStatus.OUT) = some loan →
      (u.role = UserRole.MEMBER → loan.user_id ≠ u.id →
        return_book db lid u now =
          .error (.forbidden "Cannot return another user\x27s loan")) ∧
      (¬(u.role = UserRole.MEMBER ∧ loan.user_id ≠ u.id) →
        return_book db lid u now =
          .ok ({ books := updateFirst (fun b => b.id == loan.book_id)
                   (fun b => { b with status := BookStatus.AVAILABLE, updated_at := now })
                   db.books,
                 loans := updateFirst (fun x => x.id == lid && x.status == LoanStatus.OUT)
                   (fun x => { x with status := LoanStatus.RETURNED, returned_at := some now })
                   db.loans },
               { loan with status := LoanStatus.RETURNED, returned_at := some now }))) := by
  refine ⟨?_, ?_⟩
  · intro hall
    have hf : db.loans.find? (fun x => x.id == lid && x.status == LoanStatus.OUT) = none := by
      rw [List.find?_eq_none]
      intro x hx
      by_cases hid : x.id = lid
      · have := hall x hx hid
        simp [this]
      · simp [hid]
    simp [return_book, hf]
  · intro loan hfind
    refine ⟨?_, ?_⟩
    · intro hrole hne
      have hcond : (u.role == UserRole.MEMBER && loan.user_id != u.id) = true := by
        simp [hrole, hne]
      simp [return_book, hfind, hcond]
    · intro hnot
      have hcond : (u.role == UserRole.MEMBER && loan.user_id != u.id) = false := by
        rcases Decidable.em (u.role = UserRole.MEMBER) with hr | hr
        · have hne : loan.user_id = u.id := by
            by_contra hne
            exact hnot ⟨hr, hne⟩
          simp [hne]
        · simp [hr]
      simp only [return_book, hfind, hcond, Bool.false_eq_true, if_false]

/-- Witness for C3: `wUser` returns their own loan at time 6. -/
theorem claim_C3_witness :
    return_book wDB2 10 wUser 6 =
      .ok ({ books := [{ wBookB5 with status := BookStatus.AVAILABLE, updated_at := 6 }],
             loans := [{ newOutLoan 10 1 100 5 with
               status := LoanStatus.RETURNED, returned_at := some 6 }] },
           { newOutLoan 10 1 100 5 with
             status := LoanStatus.RETURNED, returned_at := some 6 }) :=
  ((claim_C3_return_spec wDB2 10 wUser 6).2 (newOutLoan 10 1 100 5) rfl).2 (by decide)

/-! ### Claim C5 -/

/-- C5: listing loans.  The returned total is the count of all loans
matching the role filter and does not depend on `page` or `page_size`;
a MEMBER only ever receives their own loans while LIBRARIAN/ADMIN pages
range over all loans; and the returned page is ordered by the checked-out
timestamp, descending. -/
theorem claim_C5_list_loans_spec (db : DB) (u : User) (page ps : Nat) :
    ((list_loans db u page ps).total =
      if u.role = UserRole.MEMBER
      then (db.loans.filter (fun l => l.user_id == u.id)).length
      else db.loans.length) ∧
    (u.role = UserRole.MEMBER →
      ∀ l ∈ (list_loans db u page ps).items, l.user_id = u.id) ∧
    (u.role ≠ UserRole.MEMBER →
      ∀ l ∈ (list_loans db u page ps).items, l ∈ db.loans) ∧
    List.Sorted loanLater (list_loans db u page ps).items ∧
    (∀ p2 s2 : Nat, (list_loans db u p2 s2).total = (list_loans db u page ps).total) := by
  cases hrole : u.role == UserRole.MEMBER with
  | true =>
    have hr : u.role = UserRole.MEMBER := by simpa using hrole
    refine ⟨by simp [list_loans, hrole, hr], ?_, fun hne => absurd hr hne, ?_, fun _ _ => rfl⟩
    · intro _ l hl
      rw [show (list_loans db u page ps).items
          = (((db.loans.filter (fun l => l.user_id == u.id)).insertionSort loanLater).drop
              ((page - 1) * ps)).take ps by simp [list_loans, hrole]] at hl
      have hm := List.mem_filter.mp (mem_page loanLater hl)
      simpa using hm.2
    · rw [show (list_loans db u page ps).items
          = (((db.loans.filter (fun l => l.user_id == u.id)).insertionSort loanLater).drop
              ((page - 1) * ps)).take ps by simp [list_loans, hrole]]
      exact sorted_page loanLater _ _ _
  | false =>
    have hr : u.role ≠ UserRole.MEMBER := by simpa using hrole
    refine ⟨by simp [list_loans, hrole, hr], fun h => absurd h hr, ?_, ?_, fun _ _ => rfl⟩
    · intro _ l hl
      rw [show (list_loans db u page ps).items
          = ((db.loans.insertionSort loanLater).drop ((page - 1) * ps)).take ps
          by simp [list_loans, hrole]] at hl
      exact mem_page loanLater hl
    · rw [show (list_loans db u page ps).items
          = ((db.loans.insertionSort loanLater).drop ((page - 1) * ps)).take ps
          by simp [list_loans, hrole]]
      exact sorted_page loanLater _ _ _

/-- Witness for C5 at a concrete state: a MEMBER sees only their own loan. -/
theorem claim_C5_witness :
    ∀ l ∈ (list_loans wDB2 wUser 1 20).items, l.user_id = wUser.id :=
  (claim_C5_list_loans_spec wDB2 wUser 1 20).2.1 rfl

/-! ### Claim C6 -/

/-- Case-insensitive substring matching: the semantics the claim words
give the `q` and `author` filters. -/
def substrCI (hay pat : String) : Bool :=
  decide ((pat.data.map Char.toLower) <:+: (hay.data.map Char.toLower))

/-- Substring matching against a nullable column (NULL never matches). -/
def optSubstrCI (hay : Option String) (pat : String) : Bool :=
  match hay with
  | some s => substrCI s pat
  | none => false

/-- The filter semantics the claim states: every supplied filter is
applied — `q` as a case-insensitive substring match over title, author,
ISBN and description, `author` as a substring match on author, `tag` as an
exact match against an element of the tag list, `status` as an exact
match.  (This is the wording of the claim; the service itself skips a
filter supplied as the empty string, and its `ILIKE` pattern gives `%`,
`_` and `\` inside the filter text wildcard meaning.) -/
def claimedBookFilter (q author tag : Option String) (status : Option BookStatus)
    (b : Book) : Bool :=
  (match q with
   | some s => substrCI b.title s || substrCI b.author s ||
       optSubstrCI b.isbn s || optSubstrCI b.description s
   | none => true) &&
  (match author with
   | some s => substrCI b.author s
   | none => true) &&
  (match tag with
   | some s => match b.tags with
       | some ts => ts.contains s
       | none => false
   | none => true) &&
  (match status with
   | some st => b.status == st
   | none => true)

/-- The string contains none of the LIKE metacharacters `%`, `_`, `\`:
for such filter text the `ILIKE '%text%'` built by `list_books` really is
a substring match. -/
def likeLiteral (s : String) : Bool :=
  s.data.all (fun c => !(c == '%' || c == '_' || c == '\\'))

theorem toLower_ne_meta {c m : Char} (hm : ¬(97 ≤ m.toNat ∧ m.toNat ≤ 122))
    (h : c ≠ m) : c.toLower ≠ m := by
  show (if c.toNat ≥ 65 ∧ c.toNat ≤ 90 then Char.ofNat (c.toNat + 32) else c) ≠ m
  split
  · next hn =>
    intro he
    have hv : (Char.ofNat (c.toNat + 32)).toNat = c.toNat + 32 := by
      unfold Char.ofNat
      rw [dif_pos (show (c.toNat + 32).isValidChar from Or.inl (by omega))]
      rfl
    apply hm
    rw [← he, hv]
    omega
  · exact h

theorem likeLiteral_toLower {s : String} (hl : likeLiteral s = true) :
    ∀ c ∈ s.data.map Char.toLower, c ≠ '%' ∧ c ≠ '_' ∧ c ≠ '\\' := by
  intro c hc
  obtain ⟨c0, hc0, rfl⟩ := List.mem_map.mp hc
  have h0 := List.all_eq_true.mp hl c0 hc0
  simp only [Bool.not_eq_eq_eq_not, Bool.not_true, Bool.or_eq_false_iff,
    beq_eq_false_iff_ne] at h0
  obtain ⟨⟨h1, h2⟩, h3⟩ := h0
  exact ⟨toLower_ne_meta (by decide) h1, toLower_ne_meta (by decide) h2,
    toLower_ne_meta (by decide) h3⟩

theorem likeMatch_percent (ps t : List Char) :
    likeMatch ('%' :: ps) t = t.tails.any (fun s => likeMatch ps s) := by
  cases ps with
  | nil => cases t with
    | nil => simp [likeMatch]
    | cons d ts => simp [likeMatch]
  | cons p ps2 => cases t with
    | nil => simp [likeMatch]
    | cons d ts => simp [likeMatch]

theorem likeMatch_lit_nil {c : Char} (h1 : c ≠ '%') (h3 : c ≠ '\\') (ps : List Char) :
    likeMatch (c :: ps) [] = false := by
  cases ps with
  | nil => simp [likeMatch, h1, h3]
  | cons p ps2 => simp [likeMatch, h1, h3]

theorem likeMatch_lit {c : Char} (h1 : c ≠ '%') (h2 : c ≠ '_') (h3 : c ≠ '\\')
    (ps : List Char) (d : Char) (ts : List Char) :
    likeMatch (c :: ps) (d :: ts) = ((d == c) && likeMatch ps ts) := by
  cases ps with
  | nil => simp [likeMatch, h1, h2, h3]
  | cons p ps2 => simp [likeMatch, h1, h2, h3]

/-- For a metacharacter-free pattern `p`, matching `p ++ ['%']` succeeds
exactly when `p` is a prefix of the text. -/
theorem likeMatch_append_percent {p : List Char}
    (hp : ∀ c ∈ p, c ≠ '%' ∧ c ≠ '_' ∧ c ≠ '\\') :
    ∀ t : List Char, (likeMatch (p ++ ['%']) t = true ↔ p <+: t) := by
  induction p with
  | nil =>
    intro t
    rw [List.nil_append, likeMatch_percent]
    constructor
    · intro _
      exact List.nil_prefix
    · intro _
      exact List.any_eq_true.mpr ⟨[], (List.mem_tails _ _).mpr List.nil_suffix, rfl⟩
  | cons c p ih =>
    intro t
    obtain ⟨hc1, hc2, hc3⟩ := hp c (List.mem_cons_self _ _)
    have ihp := ih (fun x hx => hp x (List.mem_cons_of_mem _ hx))
    rw [List.cons_append]
    cases t with
    | nil =>
      rw [likeMatch_lit_nil hc1 hc3]
      simp
    | cons d ts =>
      rw [likeMatch_lit hc1 hc2 hc3, List.cons_prefix_cons]
      constructor
      · intro hand
        obtain ⟨hdc, hrest⟩ := (Bool.and_eq_true _ _).mp hand
        have hdc2 : d = c := by simpa using hdc
        exact ⟨hdc2.symm, (ihp ts).mp hrest⟩
      · rintro ⟨rfl, hpre⟩
        exact (Bool.and_eq_true _ _).mpr ⟨by simp, (ihp ts).mpr hpre⟩

/-- For a metacharacter-free pattern `p`, matching `'%' :: p ++ ['%']`
succeeds exactly when `p` occurs inside the text. -/
theorem likeMatch_wrap {p : List Char}
    (hp : ∀ c ∈ p, c ≠ '%' ∧ c ≠ '_' ∧ c ≠ '\\') (t : List Char) :
    likeMatch ('%' :: (p ++ ['%'])) t = true ↔ p <:+: t := by
  rw [likeMatch_percent, List.infix_iff_prefix_suffix]
  constructor
  · intro h
    obtain ⟨s, hs, hls⟩ := List.any_eq_true.mp h
    exact ⟨s, (likeMatch_append_percent hp s).mp hls, (List.mem_tails _ _).mp hs⟩
  · rintro ⟨s, hpre, hsuf⟩
    exact List.any_eq_true.mpr
      ⟨s, (List.mem_tails _ _).mpr hsuf, (likeMatch_append_percent hp s).mpr hpre⟩

/-- On filter text free of LIKE metacharacters, the `ILIKE '%text%'` of
the service is exactly the case-insensitive substring match of the
claim. -/
theorem ilikeContains_eq_substrCI {hay pat : String} (hl : likeLiteral pat = true) :
    ilikeContains hay pat = substrCI hay pat := by
  rw [Bool.eq_iff_iff]
  unfold ilikeContains substrCI
  rw [decide_eq_true_eq]
  have hlow : Char.toLower '%' = '%' := rfl
  rw [show ('%' :: (pat.data ++ ['%'])).map Char.toLower
      = '%' :: ((pat.data.map Char.toLower) ++ ['%']) by simp [hlow]]
  exact likeMatch_wrap (likeLiteral_toLower hl) _

theorem optIlikeContains_eq_optSubstrCI {hay : Option String} {pat : String}
    (hl : likeLiteral pat = true) :
    optIlikeContains hay pat = optSubstrCI hay pat := by
  cases hay with
  | none => rfl
  | some s => exact ilikeContains_eq_substrCI hl

theorem substrCI_empty (s : String) : substrCI s "" = true := by
  unfold substrCI
  rw [decide_eq_true_eq]
  exact List.nil_infix

/-- As long as the tag filter is not the empty string and the supplied
`q`/`author` texts carry no LIKE metacharacter, the row filter of the
service coincides with the claimed filter semantics (an empty `q` or
`author`, though skipped by the service, would match every row anyway). -/
theorem bookFilter_eq_claimed (q author tag : Option String) (status : Option BookStatus)
    (hq : ∀ s, q = some s → likeLiteral s = true)
    (hauthor : ∀ s, author = some s → likeLiteral s = true)
    (htag : tag ≠ some "") (b : Book) :
    bookFilter q author tag status b = claimedBookFilter q author tag status b := by
  have hAgree : ∀ s : String, likeLiteral s = true →
      (∀ hay : String, ilikeContains hay s = substrCI hay s) ∧
      (∀ hay : Option String, optIlikeContains hay s = optSubstrCI hay s) :=
    fun s hs => ⟨fun _ => ilikeContains_eq_substrCI hs,
      fun _ => optIlikeContains_eq_optSubstrCI hs⟩
  rcases tag with _ | ts
  · rcases q with _ | qs
    · rcases author with _ | as
      · rfl
      · obtain ⟨ha1, -⟩ := hAgree as (hauthor as rfl)
        by_cases hs : as = "" <;>
          simp_all [bookFilter, claimedBookFilter, substrCI_empty]
    · obtain ⟨hq1, hq2⟩ := hAgree qs (hq qs rfl)
      rcases author with _ | as
      · by_cases hqe : qs = "" <;>
          simp_all [bookFilter, claimedBookFilter, substrCI_empty]
      · obtain ⟨ha1, -⟩ := hAgree as (hauthor as rfl)
        by_cases hqe : qs = "" <;> by_cases hs : as = "" <;>
          simp_all [bookFilter, claimedBookFilter, substrCI_empty]
  · have hts : ts ≠ "" := fun he => htag (by rw [he])
    rcases q with _ | qs
    · rcases author with _ | as
      · simp_all [bookFilter, claimedBookFilter]
      · obtain ⟨ha1, -⟩ := hAgree as (hauthor as rfl)
        by_cases hs : as = "" <;>
          simp_all [bookFilter, claimedBookFilter, substrCI_empty]
    · obtain ⟨hq1, hq2⟩ := hAgree qs (hq qs rfl)
      rcases author with _ | as
      · by_cases hqe : qs = "" <;>
          simp_all [bookFilter, claimedBookFilter, substrCI_empty]
      · obtain ⟨ha1, -⟩ := hAgree as (hauthor as rfl)
        by_cases hqe : qs = "" <;> by_cases hs : as = "" <;>
          simp_all [bookFilter, claimedBookFilter, substrCI_empty]

/-- A catalogue with one tagged book, used to refute C6 at the tag
filter. -/
def wDB6 : DB := { books := [{ wBook with tags := some ["x"] }], loans := [] }

/-- A catalogue with one book whose title contains "100" but not "100%",
used to refute C6 at a wildcard-carrying `q` filter. -/
def wDB6X : DB := { books := [{ wBook with title := "Chapter 100" }], loans := [] }

/-- C6 as stated is false twice over.  A tag filter supplied as the empty
string is not applied (Python truthiness skips it), so the returned total
is the whole catalogue rather than the count of books carrying an
empty-string tag.  And a `q` filter containing a LIKE metacharacter is
interpolated raw into the `ILIKE` pattern: for q = "100%" the pattern
`%100%%` matches the title "Chapter 100", though "100%" is not a
substring of it, so the substring semantics the claim states also fails. -/
theorem claim_C6_counterexample :
    ((list_books wDB6 none none (some "") none 1 20).total = 1 ∧
     (wDB6.books.filter (claimedBookFilter none none (some "") none)).length = 0) ∧
    ((list_books wDB6X (some "100%") none none none 1 20).total = 1 ∧
     (wDB6X.books.filter (claimedBookFilter (some "100%") none none none)).length = 0) := by
  exact ⟨⟨rfl, rfl⟩, ⟨rfl, rfl⟩⟩

/-- C6 amended: provided the tag filter is not supplied as the empty
string (an empty-string tag filter is skipped by the service) and the
supplied `q` and `author` texts contain none of the LIKE metacharacters
`%`, `_`, `\` (which the service interpolates raw into the `ILIKE`
pattern, where they act as wildcards), the supplied filters are applied
conjunctively with the stated semantics, the total counts the full
filtered set, the page is ordered by creation timestamp descending, and
pages = ⌈total / page_size⌉ for every page_size in [1, 100]. -/
theorem claim_C6_list_books_spec (db : DB) (q author tag : Option String)
    (status : Option BookStatus) (page ps : Nat)
    (hq : ∀ s, q = some s → likeLiteral s = true)
    (hauthor : ∀ s, author = some s → likeLiteral s = true)
    (htag : tag ≠ some "") (hps1 : 1 ≤ ps) (hps100 : ps ≤ 100) :
    ((list_books db q author tag status page ps).total =
      (db.books.filter (claimedBookFilter q author tag status)).length) ∧
    (∀ b ∈ (list_books db q author tag status page ps).items,
      b ∈ db.books ∧ claimedBookFilter q author tag status b = true) ∧
    List.Sorted bookNewer (list_books db q author tag status page ps).items ∧
    ((list_books db q author tag status page ps).pages =
      ⌈((list_books db q author tag status page ps).total : ℚ) / (ps : ℚ)⌉₊) := by
  have hfe : db.books.filter (bookFilter q author tag status)
      = db.books.filter (claimedBookFilter q author tag status) :=
    List.filter_congr
      (fun b _ => bookFilter_eq_claimed q author tag status hq hauthor htag b)
  refine ⟨?_, ?_, ?_, ?_⟩
  · show (db.books.filter (bookFilter q author tag status)).length = _
    rw [hfe]
  · intro b hb
    rw [show (list_books db q author tag status page ps).items
        = (((db.books.filter (bookFilter q author tag status)).insertionSort
            bookNewer).drop ((page - 1) * ps)).take ps from rfl] at hb
    have hm := List.mem_filter.mp (mem_page bookNewer hb)
    exact ⟨hm.1,
      by rw [← bookFilter_eq_claimed q author tag status hq hauthor htag b]; exact hm.2⟩
  · exact sorted_page bookNewer _ _ _
  · show (if ps == 0 then 1
        else ((db.books.filter (bookFilter q author tag status)).length + ps - 1) / ps) = _
    have hps : (ps == 0) = false := by
      simp
      omega
    rw [hps]
    simp only [Bool.false_eq_true, if_false]
    exact ceilDiv_eq_nat_ceil (by omega)

/-- Witness for the amended C6: the tag filter "x" applied to the
one-book catalogue. -/
theorem claim_C6_witness :
    (list_books wDB6 none none (some "x") none 1 20).total =
      (wDB6.books.filter (claimedBookFilter none none (some "x") none)).length :=
  (claim_C6_list_books_spec wDB6 none none (some "x") none 1 20
    (fun _ h => Option.noConfusion h) (fun _ h => Option.noConfusion h)
    (by decide) (by decide) (by decide)).1

/-! ### Claim C7 -/

/-- C7: deleting a book.  If an OUT loan references it the call fails with
Conflict and, the transaction having raised, nothing is deleted; otherwise
the call succeeds, no loan referencing the book remains, the book row is
gone, and every other loan and book survives. -/
theorem claim_C7_delete_spec (db : DB) (bid : Nat) (book : Book)
    (hfind : db.books.find? (fun b => b.id == bid) = some book) :
    (hasOutLoan db.loans bid = true →
      delete_book db bid =
        .error (.conflict "Cannot delete a book that is currently borrowed")) ∧
    (hasOutLoan db.loans bid = false →
      ∃ db', delete_book db bid = .ok db' ∧
        (∀ l ∈ db'.loans, l.book_id ≠ bid) ∧
        (∀ b ∈ db'.books, b.id ≠ bid) ∧
        (∀ l ∈ db.loans, l.book_id ≠ bid → l ∈ db'.loans) ∧
        (∀ b ∈ db.books, b.id ≠ bid → b ∈ db'.books)) := by
  refine ⟨?_, ?_⟩
  · intro hOut
    simp [delete_book, hfind, hOut]
  · intro hOut
    refine ⟨{ books := db.books.filter (fun b => !(b.id == bid)),
              loans := db.loans.filter (fun l => !(l.book_id == bid)) },
            by simp [delete_book, hfind, hOut], ?_, ?_, ?_, ?_⟩
    · intro l hl
      simpa using (List.mem_filter.mp hl).2
    · intro b hb
      simpa using (List.mem_filter.mp hb).2
    · intro l hl hne
      exact List.mem_filter.mpr ⟨hl, by simpa using hne⟩
    · intro b hb hne
      exact List.mem_filter.mpr ⟨hb, by simpa using hne⟩

/-- Witness for C7: deleting the loan-free book of `wDB1`. -/
theorem claim_C7_witness :
    ∃ db', delete_book wDB1 1 = .ok db' ∧
      (∀ l ∈ db'.loans, l.book_id ≠ 1) ∧
      (∀ b ∈ db'.books, b.id ≠ 1) ∧
      (∀ l ∈ wDB1.loans, l.book_id ≠ 1 → l ∈ db'.loans) ∧
      (∀ b ∈ wDB1.books, b.id ≠ 1 → b ∈ db'.books) :=
  (claim_C7_delete_spec wDB1 1 wBook rfl).2 rfl

/-! ### Claim C8 -/

/-- C8: partial-merge update.  Every field absent from the payload keeps
its prior value in the updated row, and an ISBN that collides with the ISBN of another book surfaces as the Conflict response rather than a raw constraint
error. -/
theorem claim_C8_update_merge_semantics (db : DB) (bid : Nat) (data : BookUpdate)
    (now : Nat) (book : Book)
    (hfind : db.books.find? (fun b => b.id == bid) = some book) :
    (∀ db' bk, update_book db bid data now = .ok (db', bk) →
      (data.title = none → bk.title = book.title) ∧
      (data.author = none → bk.author = book.author) ∧
      (data.isbn = none → bk.isbn = book.isbn) ∧
      (data.published_year = none → bk.published_year = book.published_year) ∧
      (data.description = none → bk.description = book.description) ∧
      (data.tags = none → bk.tags = book.tags) ∧
      (data.status = none → bk.status = book.status)) ∧
    ((∃ s, data.isbn.getD book.isbn = some s ∧
        ∃ b2 ∈ db.books, b2.id ≠ bid ∧ b2.isbn = some s) →
      update_book db bid data now =
        .error (.conflict "A book with this ISBN already exists")) := by
  refine ⟨?_, ?_⟩
  · intro db' bk h
    obtain ⟨book2, t, a, st, hfind2, ht, ha, hst, -, hbk, -⟩ := update_book_ok_inv h
    have hbb : book2 = book := Option.some.inj (hfind2.symm.trans hfind)
    rw [hbb] at ht ha hst hbk
    refine ⟨?_, ?_, ?_, ?_, ?_, ?_, ?_⟩
    · intro hn
      rw [hbk]
      show t = book.title
      have h2 : some book.title = some t := by simpa [hn] using ht
      exact (Option.some.inj h2).symm
    · intro hn
      rw [hbk]
      show a = book.author
      have h2 : some book.author = some a := by simpa [hn] using ha
      exact (Option.some.inj h2).symm
    · intro hn
      rw [hbk]
      show data.isbn.getD book.isbn = book.isbn
      rw [hn]
      rfl
    · intro hn
      rw [hbk]
      show data.published_year.getD book.published_year = book.published_year
      rw [hn]
      rfl
    · intro hn
      rw [hbk]
      show data.description.getD book.description = book.description
      rw [hn]
      rfl
    · intro hn
      rw [hbk]
      show data.tags.getD book.tags = book.tags
      rw [hn]
      rfl
    · intro hn
      rw [hbk]
      show st = book.status
      have h2 : some book.status = some st := by simpa [hn] using hst
      exact (Option.some.inj h2).symm
  · rintro ⟨s, hs, b2, hb2, hb2ne, hb2isbn⟩
    have hic : isbnConflict db.books bid (data.isbn.getD book.isbn) = true := by
      rw [hs]
      refine List.any_eq_true.mpr ⟨b2, hb2, ?_⟩
      simp [hb2ne, hb2isbn]
    rcases htt : data.title.getD (some book.title) with _ | t <;>
      rcases hta : data.author.getD (some book.author) with _ | a <;>
        rcases hts : data.status.getD (some book.status) with _ | st <;>
          simp [update_book, hfind, htt, hta, hts, hic]

/-- A partial-update payload supplying only a new description. -/
def wUpd8 : BookUpdate := { description := some (some "An epic.") }

/-- `wBook` after `wUpd8` was applied at time 3. -/
def wBook8 : Book := { wBook with description := some "An epic.", updated_at := 3 }

/-- The database holding `wBook8`. -/
def wDB8 : DB := { books := [wBook8], loans := [] }

/-- Witness for C8: a description-only update leaves the title intact. -/
theorem claim_C8_witness : wBook8.title = wBook.title :=
  ((claim_C8_update_merge_semantics wDB1 1 wUpd8 3 wBook rfl).1 wDB8 wBook8 rfl).1 rfl

/-! ### Claim C9 -/

/-- The user row inserted by `get_or_create_user`: the stated identity
fields with the server-default role MEMBER. -/
def newMemberUser (newId now : Nat) (email name provider subject : String) : User :=
  { id := newId, email := email, name := name, role := UserRole.MEMBER,
    oauth_provider := some provider, oauth_subject := some subject, created_at := now }

/-- C9: identity resolution on login.  If a user with the (provider,
subject) pair exists it is returned unchanged; otherwise, if a user with
the email exists it is returned unchanged; otherwise a new user carrying
the given email, name, provider and subject is appended, with role
MEMBER. -/
theorem claim_C9_get_or_create_user_spec (users : List User)
    (email name provider subject : String) (newId now : Nat) :
    (∀ u, users.find? (fun u => u.oauth_provider == some provider &&
        u.oauth_subject == some subject) = some u →
      get_or_create_user users email name provider subject newId now = (users, u)) ∧
    (users.find? (fun u => u.oauth_provider == some provider &&
        u.oauth_subject == some subject) = none →
      ∀ u, users.find? (fun u => u.email == email) = some u →
        get_or_create_user users email name provider subject newId now = (users, u)) ∧
    (users.find? (fun u => u.oauth_provider == some provider &&
        u.oauth_subject == some subject) = none →
      users.find? (fun u => u.email == email) = none →
      get_or_create_user users email name provider subject newId now =
        (users ++ [newMemberUser newId now email name provider subject],
         newMemberUser newId now email name provider subject)) := by
  refine ⟨?_, ?_, ?_⟩
  · intro u hf
    simp [get_or_create_user, hf]
  · intro hf u hf2
    simp [get_or_create_user, hf, hf2]
  · intro hf hf2
    simp [get_or_create_user, hf, hf2, newMemberUser]

/-- Witness for C9: a seeded user with no OAuth link is found by email on
first login. -/
theorem claim_C9_witness :
    get_or_create_user [wUser] "a@example.com" "Alice" "google" "sub1" 7 9 =
      ([wUser], wUser) :=
  (claim_C9_get_or_create_user_spec [wUser] "a@example.com" "Alice" "google" "sub1" 7 9).2.1
    rfl wUser rfl

/-! ### Claim C10 -/

/-- C10: an explicitly-null field in the update payload counts as supplied.
A null on a nullable column (description) overwrites the stored value with
null; a null on the required `title` column makes the commit raise the
NOT NULL integrity error, which the handler surfaces as the Conflict
response whose message claims a duplicate ISBN. -/
theorem claim_C10_explicit_null (db : DB) (bid : Nat) (now : Nat) (book : Book)
    (hfind : db.books.find? (fun b => b.id == bid) = some book) :
    (∀ data : BookUpdate, data.description = some none →
      ∀ db' bk, update_book db bid data now = .ok (db', bk) → bk.description = none) ∧
    (∀ data : BookUpdate, data.title = some none →
      update_book db bid data now =
        .error (.conflict "A book with this ISBN already exists")) := by
  refine ⟨?_, ?_⟩
  · intro data hdesc db' bk h
    obtain ⟨book2, t, a, st, hfind2, -, -, -, -, hbk, -⟩ := update_book_ok_inv h
    have hbb : book2 = book := Option.some.inj (hfind2.symm.trans hfind)
    rw [hbb] at hbk
    rw [hbk]
    show data.description.getD book.description = none
    rw [hdesc]
    rfl
  · intro data ht
    have htt : data.title.getD (some book.title) = none := by rw [ht]; rfl
    rcases hta : data.author.getD (some book.author) with _ | a <;>
      rcases hts : data.status.getD (some book.status) with _ | st <;>
        simp [update_book, hfind, htt, hta, hts]

/-- The payload `{"title": null}`. -/
def wUpdNull : BookUpdate := { title := some none }

/-- Witness for C10: nulling the title of `wBook` yields the duplicate-ISBN
Conflict. -/
theorem claim_C10_witness :
    update_book wDB1 1 wUpdNull 4 =
      .error (.conflict "A book with this ISBN already exists") :=
  (claim_C10_explicit_null wDB1 1 4 wBook rfl).2 wUpdNull rfl

end Library
